import Mathlib

/-!
Shallow embedding of the NightWatch raycasting game (src/main.py) and
verification of its specification claims.

The Python program's floats are modelled as real numbers, its ints as `ℤ`,
and its `//` floor division as `Int.fdiv`.  Functions that mutate the global
`app` object are modelled as state-passing functions on explicit state
structures.  Random draws (`random.randint`) are passed in as explicit
integer parameters.
-/

namespace NightWatch

/-! ### The game clock (class `Time`, src/main.py lines 165-192)

`Time(start, speed)` sets `min = start`, `speed = speed`, `sec = 0`.
`count()` performs `sec -= 100//speed` and, when `sec//100 != 0 and
min != 0`, decrements `min`, resets `sec = 100//speed * (speed-1)` and
returns `True`; otherwise it returns `False`.  `isUp()` tests
`min == 0 and sec == 0`. -/

structure Time where
  min : ℤ
  speed : ℤ
  sec : ℤ
deriving DecidableEq

/-- Embedding of `Time.__init__` (`self.min = start; self.speed = speed; self.sec = 0`). -/
def Time.make (start speed : ℤ) : Time := ⟨start, speed, 0⟩

/-- Embedding of `Time.count` (src/main.py lines 181-187).  Returns the
`True`/`False` result together with the updated clock. -/
def Time.count (t : Time) : Bool × Time :=
  let sec1 := t.sec - (100 : ℤ).fdiv t.speed
  if sec1.fdiv 100 ≠ 0 ∧ t.min ≠ 0 then
    (true, ⟨t.min - 1, t.speed, (100 : ℤ).fdiv t.speed * (t.speed - 1)⟩)
  else
    (false, ⟨t.min, t.speed, sec1⟩)

/-- Embedding of `Time.isUp` (src/main.py lines 189-192). -/
def Time.isUp (t : Time) : Bool :=
  t.min == 0 && t.sec == 0

/-- Iterates `Time.count` the given number of times, returning how many of
the calls returned `True` together with the final clock state. -/
def countN : ℕ → Time → ℕ × Time
  | 0, t => (0, t)
  | n + 1, t =>
    let r := t.count
    let rest := countN n r.2
    (rest.1 + (if r.1 then 1 else 0), rest.2)

/-- The value `100//speed * (speed - 1)` that `count` assigns to `sec`
when a minute boundary fires. -/
def resetSec (speed : ℤ) : ℤ := (100 : ℤ).fdiv speed * (speed - 1)

/-! Helper lemmas about floor division by 100 and about `100 // speed`. -/

lemma fdiv100_eq_zero {x : ℤ} (h0 : 0 ≤ x) (h1 : x < 100) : x.fdiv 100 = 0 := by
  rw [Int.fdiv_eq_ediv _ (by norm_num)]
  omega

lemma fdiv100_ne_zero_of_neg {x : ℤ} (h0 : x < 0) : x.fdiv 100 ≠ 0 := by
  rw [Int.fdiv_eq_ediv _ (by norm_num)]
  omega

lemma one_le_q {s : ℤ} (h1 : 1 ≤ s) (h2 : s ≤ 100) : 1 ≤ (100 : ℤ).fdiv s := by
  rw [Int.fdiv_eq_ediv _ (by omega)]
  rw [Int.le_ediv_iff_mul_le (by omega)]
  omega

lemma q_mul_s_le {s : ℤ} (h1 : 1 ≤ s) : (100 : ℤ).fdiv s * s ≤ 100 := by
  rw [Int.fdiv_eq_ediv _ (by omega)]
  exact Int.ediv_mul_le _ (by omega)

/-- A single `count` call that stays inside a minute: the decremented
`sec` is still in `[0, 100)`, so nothing fires. -/
lemma count_nofire {t : Time} (h0 : 0 ≤ t.sec - (100 : ℤ).fdiv t.speed)
    (h1 : t.sec - (100 : ℤ).fdiv t.speed < 100) :
    t.count = (false, ⟨t.min, t.speed, t.sec - (100 : ℤ).fdiv t.speed⟩) := by
  unfold Time.count
  rw [if_neg]
  intro h
  exact absurd (fdiv100_eq_zero h0 h1) h.1

/-- A single `count` call that crosses the minute: the decremented `sec`
went negative (but not below `-100`) and `min` is nonzero, so the call
fires and resets `sec`. -/
lemma count_fire {t : Time} (h0 : t.sec - (100 : ℤ).fdiv t.speed < 0)
    (hm : t.min ≠ 0) :
    t.count = (true, ⟨t.min - 1, t.speed, resetSec t.speed⟩) := by
  unfold Time.count resetSec
  rw [if_pos ⟨fdiv100_ne_zero_of_neg h0, hm⟩]

/-- Iterating `count` starting from `sec = q * r` with `r + 1` remaining
calls fires exactly once (on the last call) and lands back on the reset
value, provided the clock parameters are sane. -/
lemma countN_run {s : ℤ} (h1 : 1 ≤ s) (h2 : s ≤ 100) :
    ∀ (r : ℕ) (m : ℤ), (r : ℤ) ≤ s - 1 → m ≠ 0 →
      countN (r + 1) ⟨m, s, (100 : ℤ).fdiv s * (r : ℤ)⟩ =
        (1, ⟨m - 1, s, resetSec s⟩) := by
  have hq1 : 1 ≤ (100 : ℤ).fdiv s := one_le_q h1 h2
  have hqs : (100 : ℤ).fdiv s * s ≤ 100 := q_mul_s_le h1
  intro r
  induction r with
  | zero =>
    intro m _ hm
    show countN 1 ⟨m, s, (100 : ℤ).fdiv s * 0⟩ = _
    have hc : Time.count ⟨m, s, (0 : ℤ)⟩ =
        (true, ⟨m - 1, s, resetSec s⟩) := by
      apply count_fire _ hm
      simp only [zero_sub, neg_neg]
      omega
    simp only [Nat.cast_zero, mul_zero]
    simp [countN, hc]
  | succ r ih =>
    intro m hr hm
    have hstep : Time.count ⟨m, s, (100 : ℤ).fdiv s * ((r : ℤ) + 1)⟩ =
        (false, ⟨m, s, (100 : ℤ).fdiv s * (r : ℤ)⟩) := by
      have he : (100 : ℤ).fdiv s * ((r : ℤ) + 1) - (100 : ℤ).fdiv s =
          (100 : ℤ).fdiv s * (r : ℤ) := by ring
      have hub : (100 : ℤ).fdiv s * (r : ℤ) < 100 := by
        have : (100 : ℤ).fdiv s * (r : ℤ) ≤ (100 : ℤ).fdiv s * (s - 2) := by
          apply mul_le_mul_of_nonneg_left _ (by omega)
          push_cast at hr ⊢
          omega
        nlinarith
      have hlb : 0 ≤ (100 : ℤ).fdiv s * (r : ℤ) := by positivity
      have := count_nofire (t := ⟨m, s, (100 : ℤ).fdiv s * ((r : ℤ) + 1)⟩)
        (by simpa [he] using hlb) (by simpa [he] using hub)
      simpa [he] using this
    have hrec := ih m (by push_cast at hr ⊢; omega) hm
    show countN (r + 1 + 1) _ = _
    rw [countN]
    push_cast
    rw [hstep]
    push_cast at hrec
    simp only [hrec]
    rfl

/-- C3 (counterexample): the claim quantifies over every `minutesRemaining ≥ 0`,
but with `min = 0` the firing condition `sec//100 != 0 and min != 0` can never
hold: starting from the reset value `90` with `speed = 10`, ten calls to
`count` return `True` zero times (not exactly once) and leave `sec = -10`,
not the reset value `90`. -/
theorem claim_C3_counterexample :
    countN 10 ⟨0, 10, 90⟩ = (0, ⟨0, 10, -10⟩) ∧ resetSec 10 = 90 := by
  constructor <;> decide

/-- C3 (amended): for every `ticksPerMinute` (speed) with `1 ≤ speed ≤ 100`
and every `minutesRemaining ≥ 1`, starting from a state immediately after a
minute boundary (`sec` at the reset value `100//speed * (speed-1)`), calling
`Time.count` exactly `speed` times returns `True` exactly once and leaves
`sec` again at its reset value (the claim fails for `min = 0`, where the
boundary never fires, and degenerates for `speed > 100`, where
`100//speed = 0` and `sec` never moves). -/
theorem claim_C3_amended (s : ℕ) (h1 : 1 ≤ s) (h2 : s ≤ 100)
    (m : ℤ) (hm : 1 ≤ m) :
    countN s ⟨m, (s : ℤ), resetSec (s : ℤ)⟩ = (1, ⟨m - 1, (s : ℤ), resetSec (s : ℤ)⟩) := by
  have hrun := countN_run (s := (s : ℤ)) (by exact_mod_cast h1) (by exact_mod_cast h2)
    (s - 1) m (by omega) (by omega)
  have hn : s - 1 + 1 = s := by omega
  have hsec : (100 : ℤ).fdiv (s : ℤ) * ((s - 1 : ℕ) : ℤ) = resetSec (s : ℤ) := by
    unfold resetSec
    push_cast [h1]
    ring
  rw [hn, hsec] at hrun
  exact hrun

/-- C3 (witness): instantiating the amended claim at `speed = 10`,
`minutesRemaining = 100`: ten calls from `sec = 90` fire exactly once and
return `sec` to `90`. -/
theorem claim_C3_witness :
    countN 10 ⟨100, 10, 90⟩ = (1, ⟨99, 10, 90⟩) := by
  have h := claim_C3_amended 10 (by norm_num) (by norm_num) 100 (by norm_num)
  have e : resetSec ((10 : ℕ) : ℤ) = 90 := by decide
  rw [e] at h
  exact_mod_cast h

/-- C10 (counterexample): the claim quantifies over every `speed > 0`, but for
`speed = 101` we get `100//speed = 0`, so the very first `count()` on
`Time(100, 101)` leaves `sec = 0` and returns `False`, not `True`. -/
theorem claim_C10_counterexample :
    (Time.make 100 101).count = (false, ⟨100, 101, 0⟩) := by
  decide

/-- C10 (amended): for every freshly constructed clock `Time(start, speed)`
with `start ≥ 1` and `1 ≤ speed ≤ 100`, the very first call to `count()`
returns `True`, decrements `min` from `start` to `start - 1`, and sets
`sec = 100//speed * (speed - 1)`: because `sec` is initialized to `0`, the
clock signals a minute boundary on its very first tick. -/
theorem claim_C10_amended (start speed : ℤ) (hs : 1 ≤ start)
    (h1 : 1 ≤ speed) (h2 : speed ≤ 100) :
    (Time.make start speed).count = (true, ⟨start - 1, speed, resetSec speed⟩) := by
  have hq1 : 1 ≤ (100 : ℤ).fdiv speed := one_le_q h1 h2
  apply count_fire
  · show (0 : ℤ) - (100 : ℤ).fdiv speed < 0
    omega
  · show start ≠ 0
    omega

/-- C10 (witness): `Time(100, 10)` fires on its first `count()`, going to
`min = 99`, `sec = 90`. -/
theorem claim_C10_witness :
    (Time.make 100 10).count = (true, ⟨99, 10, 90⟩) := by
  have h := claim_C10_amended 100 10 (by norm_num) (by norm_num) (by norm_num)
  rw [h]
  decide

/-! ### Angles and 2D vectors (class `Vec2D`, src/main.py lines 53-95)

Python floats are modelled as real numbers.  `math.radians`/`math.degrees`
are the usual linear conversions and `math.atan2` is the standard
two-argument arctangent with range `(-pi, pi]`. -/

/-- Embedding of `math.radians`. -/
noncomputable def radiansOf (d : ℝ) : ℝ := d * Real.pi / 180

/-- Embedding of `math.degrees`. -/
noncomputable def degreesOf (r : ℝ) : ℝ := r * 180 / Real.pi

/-- Embedding of Python `int(x)` on floats: truncation toward zero. -/
noncomputable def pyInt (x : ℝ) : ℤ := if x < 0 then ⌈x⌉ else ⌊x⌋

/-- Modelled from the C math library semantics of Python's `math.atan2 y x`:
the angle of the point `(x, y)` in `(-pi, pi]`, computed from `arctan` by
quadrant. -/
noncomputable def atan2 (y x : ℝ) : ℝ :=
  if 0 < x then Real.arctan (y / x)
  else if x < 0 then
    (if 0 ≤ y then Real.arctan (y / x) + Real.pi else Real.arctan (y / x) - Real.pi)
  else
    (if 0 < y then Real.pi / 2 else if y < 0 then -(Real.pi / 2) else 0)

namespace Vec2D

/-- Embedding of `Vec2D.getMagnitude` (src/main.py lines 80-81):
`(x**2 + y**2) ** 0.5`. -/
noncomputable def getMagnitude (v : ℝ × ℝ) : ℝ := (v.1 ^ 2 + v.2 ^ 2) ^ ((1 : ℝ) / 2)

/-- Embedding of `Vec2D.getAngle` (src/main.py lines 83-84):
`math.degrees(math.atan2(y, x))`. -/
noncomputable def getAngle (v : ℝ × ℝ) : ℝ := degreesOf (atan2 v.2 v.1)

/-- Embedding of `Vec2D.rotate` (src/main.py lines 91-95).  The source
mutates `self.x` first and then computes `self.y` FROM THE ALREADY UPDATED
`self.x`; the embedding reproduces that aliasing faithfully. -/
noncomputable def rotate (v : ℝ × ℝ) (angle : ℝ) : ℝ × ℝ :=
  let r := radiansOf (-angle)
  let x := v.1 * Real.cos r - v.2 * Real.sin r
  (x, x * Real.sin r + v.2 * Real.cos r)

/-- Modelled from the spec (§4.1 and claim C7): the standard 2D rotation
matrix applied with the negative of the supplied angle, BOTH components
computed from the original coordinates. -/
noncomputable def rotateSpec (v : ℝ × ℝ) (angle : ℝ) : ℝ × ℝ :=
  let r := radiansOf (-angle)
  (v.1 * Real.cos r - v.2 * Real.sin r, v.1 * Real.sin r + v.2 * Real.cos r)

end Vec2D

lemma radiansOf_neg_ninety : radiansOf (-90) = -(Real.pi / 2) := by
  unfold radiansOf
  ring

lemma cos_radiansOf_neg_ninety : Real.cos (radiansOf (-90)) = 0 := by
  rw [radiansOf_neg_ninety, Real.cos_neg, Real.cos_pi_div_two]

lemma sin_radiansOf_neg_ninety : Real.sin (radiansOf (-90)) = -1 := by
  rw [radiansOf_neg_ninety, Real.sin_neg, Real.sin_pi_div_two]

/-- C7 (code bug): `rotate` does not apply the claimed rotation matrix.  At
`v = (0, 1)`, `angle = 90` the code produces `(1, -1)` — the `y` component
is computed from the already-mutated `x` — whereas the spec's formula gives
`(1, 0)`; in particular the magnitude grows from `1` to `sqrt 2`, so
`rotate` does not preserve magnitude. -/
theorem claim_C7_rotate_bug :
    Vec2D.rotate (0, 1) 90 = (1, -1) ∧
    Vec2D.rotateSpec (0, 1) 90 = (1, 0) ∧
    Vec2D.getMagnitude (Vec2D.rotate (0, 1) 90) ≠ Vec2D.getMagnitude (0, 1) := by
  have hc : Real.cos (radiansOf (-90)) = 0 := cos_radiansOf_neg_ninety
  have hs : Real.sin (radiansOf (-90)) = -1 := sin_radiansOf_neg_ninety
  have h1 : Vec2D.rotate (0, 1) 90 = (1, -1) := by
    simp only [Vec2D.rotate, hc, hs]
    norm_num
  have h2 : Vec2D.rotateSpec (0, 1) 90 = (1, 0) := by
    simp only [Vec2D.rotateSpec, hc, hs]
    norm_num
  refine ⟨h1, h2, ?_⟩
  rw [h1]
  unfold Vec2D.getMagnitude
  rw [← Real.sqrt_eq_rpow, ← Real.sqrt_eq_rpow]
  have e1 : (((1 : ℝ), (-1 : ℝ)).1 ^ 2 + ((1 : ℝ), (-1 : ℝ)).2 ^ 2) = 2 := by norm_num
  have e2 : (((0 : ℝ), (1 : ℝ)).1 ^ 2 + ((0 : ℝ), (1 : ℝ)).2 ^ 2) = 1 := by norm_num
  rw [e1, e2, Real.sqrt_one]
  intro h
  have hsq : Real.sqrt 2 ^ 2 = 2 := Real.sq_sqrt (by norm_num)
  rw [h] at hsq
  norm_num at hsq

/-! ### The map and the ray caster (src/main.py lines 40-51 and 498-543)

`fastCastRay` is Amanatides-Woo grid DDA.  The Python `while` loop carries
`mapX, mapY, sideDistX, sideDistY, side`; we model it as a fuel-indexed
recursion on that state.  The fuel is set to `rows + cols + 1`, one more
than the iteration bound asserted by the spec, so that a normal exit within
`rows + cols` steps is represented by `ok` and anything longer by
`fuelOut`.  Crucially, line 522 of the source assigns `stepX = 1` where the
symmetric code requires `stepY = 1`, so for rays with `rayDirY >= 0` the
variable `stepY` is never bound and the first Y-step raises a Python
`NameError`; the embedding represents `stepY` as an `Option` and that crash
as the `nameError` result. -/

/-- Embedding of the fixed reference map (class `Map`, src/main.py lines
40-51): 8 rows by 6 columns, border cells 1, interior cells 0. -/
def refMap : List (List ℤ) :=
  [[1, 1, 1, 1, 1, 1],
   [1, 0, 0, 0, 0, 1],
   [1, 0, 0, 0, 0, 1],
   [1, 0, 0, 0, 0, 1],
   [1, 0, 0, 0, 0, 1],
   [1, 0, 0, 0, 0, 1],
   [1, 0, 0, 0, 0, 1],
   [1, 1, 1, 1, 1, 1]]

/-- Cell lookup `grid2D[mapY][mapX]`.  The loop guard guarantees the
indices are in range before any access, so the default value is
irrelevant. -/
def cellAt (g : List (List ℤ)) (x y : ℤ) : ℤ :=
  (g.getD y.toNat []).getD x.toNat 1

/-- The mutable state of the traversal loop of `fastCastRay`. -/
structure RayState where
  mapX : ℤ
  mapY : ℤ
  sideDistX : ℝ
  sideDistY : ℝ
  side : ℕ

/-- Outcome of the traversal loop: a normal exit with the final state, the
`NameError` crash caused by the unbound `stepY`, or fuel exhaustion (the
loop still running after more iterations than the spec's bound). -/
inductive RayResult where
  | ok : RayState → RayResult
  | nameError : RayResult
  | fuelOut : RayState → RayResult

/-- The `while` guard of `fastCastRay` (src/main.py lines 527-528):
indices within `[0, cols) x [0, rows)` and the visited cell open. -/
def rayGuard (g : List (List ℤ)) (cols rows x y : ℤ) : Prop :=
  0 ≤ x ∧ x < cols ∧ 0 ≤ y ∧ y < rows ∧ cellAt g x y = 0

instance (g : List (List ℤ)) (cols rows x y : ℤ) :
    Decidable (rayGuard g cols rows x y) := by
  unfold rayGuard
  infer_instance

/-- Embedding of the traversal loop of `fastCastRay` (src/main.py lines
527-536), fuel-indexed. -/
noncomputable def traverseLoop (g : List (List ℤ)) (rows cols : ℤ) (dX dY : ℝ)
    (stepX : ℤ) (stepY : Option ℤ) : ℕ → RayState → RayResult
  | 0, s => .fuelOut s
  | fuel + 1, s =>
    if rayGuard g cols rows s.mapX s.mapY then
      if s.sideDistX < s.sideDistY then
        traverseLoop g rows cols dX dY stepX stepY fuel
          ⟨s.mapX + stepX, s.mapY, s.sideDistX + dX, s.sideDistY, 0⟩
      else
        match stepY with
        | none => .nameError
        | some sy =>
          traverseLoop g rows cols dX dY stepX stepY fuel
            ⟨s.mapX, s.mapY + sy, s.sideDistX, s.sideDistY + dY, 1⟩
    else .ok s

/-- Ray direction x-component, `math.cos(math.radians(angle))`. -/
noncomputable def rayDirX (angle : ℝ) : ℝ := Real.cos (radiansOf angle)

/-- Ray direction y-component, `math.sin(math.radians(angle))`. -/
noncomputable def rayDirY (angle : ℝ) : ℝ := Real.sin (radiansOf angle)

/-- Embedding of `deltaDistX = abs(1 / rayDirX) if rayDirX != 0 else 1e30`
(src/main.py line 508). -/
noncomputable def deltaDistX (angle : ℝ) : ℝ :=
  if rayDirX angle ≠ 0 then |1 / rayDirX angle| else 1e30

/-- Embedding of `deltaDistY` (src/main.py line 509). -/
noncomputable def deltaDistY (angle : ℝ) : ℝ :=
  if rayDirY angle ≠ 0 then |1 / rayDirY angle| else 1e30

/-- Embedding of `fastCastRay` (src/main.py lines 498-536) up to and
including the traversal loop.  Lines 518-523 of the source read:
when `rayDirY < 0`, `stepY = -1`; otherwise the code sets `stepX = 1`
again (the line-522 slip) and `stepY` is left unbound (`none`). -/
noncomputable def fastCastRay (g : List (List ℤ)) (rows cols : ℤ)
    (posX posY angle : ℝ) : RayResult :=
  let mapX := pyInt posX
  let mapY := pyInt posY
  let dX := deltaDistX angle
  let dY := deltaDistY angle
  let stepX0 : ℤ := if rayDirX angle < 0 then -1 else 1
  let sideDistX : ℝ :=
    if rayDirX angle < 0 then (posX - (mapX : ℝ)) * dX else ((mapX : ℝ) + 1 - posX) * dX
  let stepX : ℤ := if rayDirY angle < 0 then stepX0 else 1
  let stepY : Option ℤ := if rayDirY angle < 0 then some (-1) else none
  let sideDistY : ℝ :=
    if rayDirY angle < 0 then (posY - (mapY : ℝ)) * dY else ((mapY : ℝ) + 1 - posY) * dY
  traverseLoop g rows cols dX dY stepX stepY ((rows + cols).toNat + 1)
    ⟨mapX, mapY, sideDistX, sideDistY, 0⟩

/-- Embedding of the perpendicular-distance computation after the loop
(src/main.py lines 538-541): `sideDist` of the side that was last stepped,
minus its own delta. -/
noncomputable def rayDistance (angle : ℝ) (s : RayState) : ℝ :=
  if s.side = 0 then s.sideDistX - deltaDistX angle else s.sideDistY - deltaDistY angle

/-- Embedding of the wall-height computation of `drawWall` (src/main.py
line 461): `0 if distance == None else int(modelWallHeight / distance)`,
with `modelWallHeight = 900`. -/
noncomputable def viewWallHeight (distance : Option ℝ) : ℤ :=
  match distance with
  | none => 0
  | some d => pyInt (900 / d)

/-! Step lemmas used to run the traversal loop in proofs. -/

lemma traverseLoop_stepY {g rows cols dX dY stepX sy fuel} {s : RayState}
    (hg : rayGuard g cols rows s.mapX s.mapY) (hlt : ¬ s.sideDistX < s.sideDistY) :
    traverseLoop g rows cols dX dY stepX (some sy) (fuel + 1) s =
      traverseLoop g rows cols dX dY stepX (some sy) fuel
        ⟨s.mapX, s.mapY + sy, s.sideDistX, s.sideDistY + dY, 1⟩ := by
  rw [traverseLoop, if_pos hg, if_neg hlt]

lemma traverseLoop_stepX {g rows cols dX dY stepX sy fuel} {s : RayState}
    (hg : rayGuard g cols rows s.mapX s.mapY) (hlt : s.sideDistX < s.sideDistY) :
    traverseLoop g rows cols dX dY stepX (some sy) (fuel + 1) s =
      traverseLoop g rows cols dX dY stepX (some sy) fuel
        ⟨s.mapX + stepX, s.mapY, s.sideDistX + dX, s.sideDistY, 0⟩ := by
  rw [traverseLoop, if_pos hg, if_pos hlt]

lemma traverseLoop_exit {g rows cols dX dY stepX sy fuel} {s : RayState}
    (hg : ¬ rayGuard g cols rows s.mapX s.mapY) :
    traverseLoop g rows cols dX dY stepX (some sy) (fuel + 1) s = .ok s := by
  rw [traverseLoop, if_neg hg]

lemma traverseLoop_crash {g rows cols dX dY stepX fuel} {s : RayState}
    (hg : rayGuard g cols rows s.mapX s.mapY) (hlt : ¬ s.sideDistX < s.sideDistY) :
    traverseLoop g rows cols dX dY stepX none (fuel + 1) s = .nameError := by
  rw [traverseLoop, if_pos hg, if_neg hlt]

/-! Evaluation of `fastCastRay` at the straight-up angle `-90`. -/

lemma rayDirX_neg_ninety : rayDirX (-90) = 0 := by
  unfold rayDirX
  exact cos_radiansOf_neg_ninety

lemma rayDirY_neg_ninety : rayDirY (-90) = -1 := by
  unfold rayDirY
  exact sin_radiansOf_neg_ninety

lemma deltaDistX_neg_ninety : deltaDistX (-90) = 1e30 := by
  unfold deltaDistX
  rw [rayDirX_neg_ninety]
  norm_num

lemma deltaDistY_neg_ninety : deltaDistY (-90) = 1 := by
  unfold deltaDistY
  rw [rayDirY_neg_ninety]
  norm_num

lemma pyInt_three : pyInt (3 : ℝ) = 3 := by
  unfold pyInt
  norm_num

lemma pyInt_five : pyInt (5 : ℝ) = 5 := by
  unfold pyInt
  norm_num

/-- Setting up `fastCastRay` at angle `-90` from any position: the
direction is `(0, -1)`, so `deltaDistX` is the `1e30` sentinel,
`deltaDistY = 1`, `stepY = -1` and the first Y grid line is below the
player. -/
lemma fastCastRay_neg_ninety (g : List (List ℤ)) (rows cols : ℤ) (posX posY : ℝ) :
    fastCastRay g rows cols posX posY (-90) =
      traverseLoop g rows cols (1e30) 1 1 (some (-1)) ((rows + cols).toNat + 1)
        ⟨pyInt posX, pyInt posY, ((pyInt posX : ℝ) + 1 - posX) * 1e30,
          posY - (pyInt posY : ℝ), 0⟩ := by
  unfold fastCastRay
  rw [deltaDistX_neg_ninety, deltaDistY_neg_ninety, rayDirX_neg_ninety, rayDirY_neg_ninety]
  norm_num

/-- Setting up `fastCastRay` at angle `-90` from position `(3, 5)` on the
reference map. -/
lemma fastCastRay_ref_init :
    fastCastRay refMap 8 6 3 5 (-90) =
      traverseLoop refMap 8 6 (1e30) 1 1 (some (-1)) 15 ⟨3, 5, 1e30, 0, 0⟩ := by
  rw [fastCastRay_neg_ninety, pyInt_three, pyInt_five]
  norm_num
  congr 1

/-- Running the traversal: five Y-steps straight up through the open
column, stopping on the top border row. -/
lemma traverseLoop_ref_run (fuel : ℕ) :
    traverseLoop refMap 8 6 (1e30) 1 1 (some (-1)) (fuel + 6) ⟨3, 5, 1e30, 0, 0⟩ =
      .ok ⟨3, 0, 1e30, 5, 1⟩ := by
  rw [traverseLoop_stepY (by decide) (by norm_num)]
  rw [traverseLoop_stepY (by decide) (by norm_num)]
  rw [traverseLoop_stepY (by decide) (by norm_num)]
  rw [traverseLoop_stepY (by decide) (by norm_num)]
  rw [traverseLoop_stepY (by decide) (by norm_num)]
  rw [traverseLoop_exit (by decide)]
  norm_num

/-- C1 (confirmed): on the fixed reference map with the player at
`(3.0, 5.0)` facing `(0, -1)`, the ray cast at the exact facing angle
`-90` degrees terminates on the occupied top-border cell `(3, 0)` (a hit,
not a boundary exit), the final grid-line crossing is on the Y axis
(`side = 1`), and the perpendicular distance is exactly `4`. -/
theorem claim_C1_straight_ray :
    fastCastRay refMap 8 6 3 5 (-90) = .ok ⟨3, 0, 1e30, 5, 1⟩ ∧
    rayDistance (-90) ⟨3, 0, 1e30, 5, 1⟩ = 4 ∧
    cellAt refMap 3 0 = 1 := by
  refine ⟨?_, ?_, by decide⟩
  · rw [fastCastRay_ref_init]
    show traverseLoop refMap 8 6 (1e30) 1 1 (some (-1)) (9 + 6) ⟨3, 5, 1e30, 0, 0⟩ = _
    exact traverseLoop_ref_run 9
  · unfold rayDistance
    rw [deltaDistY_neg_ninety]
    norm_num

/-! Evaluation of `fastCastRay` at the straight-down angle `90`, which
exercises the line-522 slip:`rayDirY = 1 >= 0`, so `stepY` is never
assigned and the first Y-step of the loop raises `NameError`. -/

lemma radiansOf_ninety : radiansOf 90 = Real.pi / 2 := by
  unfold radiansOf
  ring

lemma rayDirX_ninety : rayDirX 90 = 0 := by
  unfold rayDirX
  rw [radiansOf_ninety, Real.cos_pi_div_two]

lemma rayDirY_ninety : rayDirY 90 = 1 := by
  unfold rayDirY
  rw [radiansOf_ninety, Real.sin_pi_div_two]

lemma deltaDistX_ninety : deltaDistX 90 = 1e30 := by
  unfold deltaDistX
  rw [rayDirX_ninety]
  norm_num

lemma deltaDistY_ninety : deltaDistY 90 = 1 := by
  unfold deltaDistY
  rw [rayDirY_ninety]
  norm_num

/-- Setting up `fastCastRay` at angle `90` from `(3, 5)`: `rayDirY = 1`,
so the line-522 branch runs, `stepY` stays unbound (`none`) and
`sideDistY = 1`. -/
lemma fastCastRay_down_init :
    fastCastRay refMap 8 6 3 5 90 =
      traverseLoop refMap 8 6 (1e30) 1 1 none 15 ⟨3, 5, 1e30, 1, 0⟩ := by
  unfold fastCastRay
  rw [deltaDistX_ninety, deltaDistY_ninety, rayDirX_ninety, rayDirY_ninety,
    pyInt_three, pyInt_five]
  norm_num
  congr 1

/-- C9 (code bug): the claim promises termination via hit or boundary exit
for EVERY ray angle, but for any ray with `rayDirY >= 0` line 522 assigns
`stepX = 1` where `stepY = 1` was intended, leaving `stepY` unbound; the
first Y-step then raises `NameError`.  Concretely, from the player position
`(3, 5)` on the reference map the ray at angle `90` (straight down) crashes
on its very first loop iteration. -/
theorem claim_C9_name_error :
    fastCastRay refMap 8 6 3 5 90 = .nameError := by
  rw [fastCastRay_down_init]
  show traverseLoop refMap 8 6 (1e30) 1 1 none (14 + 1) ⟨3, 5, 1e30, 1, 0⟩ = .nameError
  rw [traverseLoop_crash (by decide) (by norm_num)]

/-- A 1-by-1 grid consisting of a single open cell: every ray traversal
leaves its bounds without ever visiting an occupied cell. -/
def openGrid : List (List ℤ) := [[0]]

lemma pyInt_half : pyInt (1 / 2 : ℝ) = 0 := by
  unfold pyInt
  norm_num

/-- The distance value handed to `drawWall` by `fastCastRay` for a given
loop outcome: after a normal loop exit (hit OR boundary exit) the source
always passes the number `sideDist - deltaDist` (src/main.py lines
538-543); it never passes Python's `None`.  The outer `none` marks the
executions in which `drawWall` is not reached in the model (`NameError`,
or fuel exhaustion). -/
noncomputable def distancePassed (angle : ℝ) (r : RayResult) : Option (Option ℝ) :=
  match r with
  | .ok s => some (some (rayDistance angle s))
  | .nameError => none
  | .fuelOut _ => none

/-- Running the single-step traversal on the open 1-by-1 grid: one Y-step
from `(0, 0)` exits the bottom... rather, the `y` index drops to `-1` and
the loop stops with a boundary exit. -/
lemma traverseLoop_open_run (fuel : ℕ) :
    traverseLoop openGrid 1 1 (1e30) 1 1 (some (-1)) (fuel + 2)
      ⟨0, 0, (1 / 2) * 1e30, 1 / 2, 0⟩ =
      .ok ⟨0, -1, (1 / 2) * 1e30, 3 / 2, 1⟩ := by
  rw [traverseLoop_stepY (by decide) (by norm_num)]
  rw [traverseLoop_exit (by decide)]
  norm_num

/-- Setting up the `-90` ray from `(0.5, 0.5)` on the open 1-by-1 grid. -/
lemma fastCastRay_open_init :
    fastCastRay openGrid 1 1 (1 / 2) (1 / 2) (-90) =
      traverseLoop openGrid 1 1 (1e30) 1 1 (some (-1)) 3
        ⟨0, 0, (1 / 2) * 1e30, 1 / 2, 0⟩ := by
  rw [fastCastRay_neg_ninety, pyInt_half]
  norm_num
  congr 1

/-- The full run on the open grid: the ray exits the top of the grid
(`mapY = -1`) without visiting an occupied cell. -/
lemma fastCastRay_open_result :
    fastCastRay openGrid 1 1 (1 / 2) (1 / 2) (-90) =
      .ok ⟨0, -1, (1 / 2) * 1e30, 3 / 2, 1⟩ := by
  rw [fastCastRay_open_init]
  show traverseLoop openGrid 1 1 (1e30) 1 1 (some (-1)) (1 + 2)
    ⟨0, 0, (1 / 2) * 1e30, 1 / 2, 0⟩ = _
  exact traverseLoop_open_run 1

/-- C5 (counterexample): on the all-open 1-by-1 grid, the ray from
`(0.5, 0.5)` at angle `-90` leaves the grid bounds without ever visiting
an occupied cell, yet `fastCastRay` hands `drawWall` the NUMERIC distance
`0.5` — not a distinct no-hit value — and the downstream wall-height
computation produces the nonzero height `1800`, i.e. a wall IS drawn. -/
theorem claim_C5_counterexample :
    distancePassed (-90) (fastCastRay openGrid 1 1 (1 / 2) (1 / 2) (-90)) =
      some (some (1 / 2)) ∧
    viewWallHeight (some (1 / 2)) ≠ 0 := by
  have hrun := fastCastRay_open_result
  constructor
  · rw [hrun]
    unfold distancePassed rayDistance
    rw [deltaDistY_neg_ninety]
    norm_num
  · unfold viewWallHeight pyInt
    norm_num

/-- C5 (amended): a boundary exit is not reported distinctly.  After the
loop leaves the grid (final `mapY = -1`, outside `[0, rows)`), the code
computes the same numeric `sideDist - deltaDist` distance as for a hit
(`0.5` here) and `drawWall` computes a nonzero wall height (`1800`) from
it; only a literal `None` distance — which `fastCastRay` never passes —
is treated as "no wall to draw" (height `0`). -/
theorem claim_C5_amended :
    fastCastRay openGrid 1 1 (1 / 2) (1 / 2) (-90) =
      .ok ⟨0, -1, (1 / 2) * 1e30, 3 / 2, 1⟩ ∧
    rayDistance (-90) ⟨0, -1, (1 / 2) * 1e30, 3 / 2, 1⟩ = 1 / 2 ∧
    viewWallHeight (some (1 / 2)) = 1800 ∧
    viewWallHeight none = 0 := by
  refine ⟨fastCastRay_open_result, ?_, ?_, rfl⟩
  · unfold rayDistance
    rw [deltaDistY_neg_ninety]
    norm_num
  · unfold viewWallHeight pyInt
    norm_num

/-! ### Global app state and the game state machine (src/main.py lines
195-392)

The Python program keeps all game state as attributes of the global `app`
object; we collect the attributes read or written by the modelled
functions into one structure.  `random.randint(1, 100)` and
`random.randint(30, 150)` are passed in as explicit parameters `n` and
`k`. -/

/-- Embedding of `app.waterLevel = app.screen.height // 7 * 3` with
`height = 400` (src/main.py line 212); equals `171`. -/
def waterLevel : ℤ := (400 : ℤ).fdiv 7 * 3

/-- Embedding of `app.playerFOV` (src/main.py lines 203-204):
`math.degrees(2 * math.atan(|camera| / |playerDir|))` with
`camera = (0.0, 0.66)` and `playerDir = (0.0, -1.0)`. -/
noncomputable def playerFOV : ℝ :=
  degreesOf (2 * Real.arctan
    (Vec2D.getMagnitude ((0 : ℝ), (0.66 : ℝ)) / Vec2D.getMagnitude ((0 : ℝ), (-1 : ℝ))))

/-- The `app` attributes read or written by the modelled game logic. -/
structure AppState where
  gameTime : Time
  gameOver : Bool
  gameWon : Bool
  lightAngle : Option ℤ
  lightRadius : ℤ
  lightdRadius : ℤ
  lightEndRadius : ℤ
  lightSpawn : ℚ
  lightPos : ℤ
  lightdPos : ℤ
  hitBox : Option (ℝ × ℝ)
  hitBoxSize : ℤ
  playerDir : ℝ × ℝ
  cameraTilt : ℤ
  isTiltingUp : Bool
  waveAmount : ℤ
  dWave : ℤ

/-- Embedding of `resetLight` (src/main.py lines 246-249). -/
def resetLight (s : AppState) : AppState :=
  { s with lightAngle := none, lightRadius := 8, lightPos := 0 }

/-- Embedding of `reset` (src/main.py lines 224-244).  Note the source
calls `resetLight` (making the light dormant) and then immediately
re-arms it with `app.lightAngle = -90`. -/
noncomputable def reset (s : AppState) : AppState :=
  let s1 := resetLight
    { s with gameTime := Time.make 100 10, gameOver := false, gameWon := false }
  { s1 with
    lightAngle := some (-90),
    lightdRadius := 5,
    lightEndRadius := 40,
    lightSpawn := 1 / 10,
    lightPos := 0,
    lightdPos := 2,
    hitBox := none,
    hitBoxSize := 80,
    playerDir := ((0 : ℝ), (-1 : ℝ)) }

/-- The state built by `onAppStart` followed by `reset` (src/main.py lines
195-244); the wave attributes come from `onAppStart`, everything else from
`reset`.  The seed record only supplies the fields `reset` overwrites. -/
noncomputable def initState : AppState :=
  reset
    { gameTime := Time.make 100 10,
      gameOver := false,
      gameWon := false,
      lightAngle := none,
      lightRadius := 8,
      lightdRadius := 5,
      lightEndRadius := 40,
      lightSpawn := 1 / 10,
      lightPos := 0,
      lightdPos := 2,
      hitBox := none,
      hitBoxSize := 80,
      playerDir := ((0 : ℝ), (-1 : ℝ)),
      cameraTilt := 30,
      isTiltingUp := true,
      waveAmount := 30,
      dWave := 1 }

/-- Embedding of `spawnLight` (src/main.py lines 370-379): `n` is the
draw `random.randint(1, 100)`, `k` the draw `random.randint(30, 150)`
(only reached when the first test does not abort).  Note the source
ABORTS (no spawn) when `lightSpawn * 100 > n` and arms otherwise. -/
def spawnLight (n k : ℤ) (s : AppState) : AppState :=
  if s.lightSpawn * 100 > (n : ℚ) then s
  else { s with lightAngle := some (k * -1) }

/-- Embedding of `changeLight` (src/main.py lines 362-367): grow the armed
light, or try to spawn a dormant one. -/
def changeLight (n k : ℤ) (s : AppState) : AppState :=
  match s.lightAngle with
  | some _ =>
    { s with
      lightRadius := s.lightRadius + s.lightdRadius,
      lightPos := s.lightPos + s.lightdPos }
  | none => spawnLight n k s

/-- Embedding of `fixBoxPosition` (src/main.py lines 325-336). -/
noncomputable def fixBoxPosition (s : AppState) : AppState :=
  let playerAngle := Vec2D.getAngle s.playerDir
  let leftAngle := playerAngle - playerFOV / 2
  let rightAngle := playerAngle + playerFOV / 2
  match s.lightAngle with
  | some a =>
    if leftAngle ≤ (a : ℝ) ∧ (a : ℝ) ≤ rightAngle then
      { s with
        hitBox := some (((a : ℝ) - leftAngle) / playerFOV * 400,
          (waterLevel : ℝ) + (s.lightPos : ℝ)) }
    else { s with hitBox := none }
  | none => { s with hitBox := none }

/-- The state mutation of `wave` once its guard has passed (src/main.py
lines 387-392). -/
def waveCore (s : AppState) : AppState :=
  let s1 := if s.cameraTilt > s.waveAmount ∨ s.cameraTilt < 5 then
      { s with isTiltingUp := !s.isTiltingUp } else s
  if s1.isTiltingUp then { s1 with cameraTilt := s1.cameraTilt + s1.dWave }
  else { s1 with cameraTilt := s1.cameraTilt - s1.dWave }

/-- Embedding of `wave` (src/main.py lines 383-392): raises `TypeError`
(modelled as `none`) unless `waveAmount` is a multiple of 5. -/
def wave (s : AppState) : Option AppState :=
  if s.waveAmount % 5 = 0 then some (waveCore s) else none

/-- Embedding of `onStep` (src/main.py lines 303-323): the per-frame
state-machine transition.  `n`, `k` are the random draws consumed if the
minute boundary fires while the light is dormant. -/
noncomputable def onStep (n k : ℤ) (s : AppState) : Option AppState :=
  if !s.gameTime.isUp then
    (if s.lightRadius ≥ s.lightEndRadius then
      some { s with gameOver := true, gameTime := Time.make 0 10 }
    else
      match wave s with
      | none => none
      | some s1 =>
        let c := s1.gameTime.count
        let s2 : AppState := { s1 with gameTime := c.2 }
        if c.1 then some (fixBoxPosition (changeLight n k s2)) else some s2)
  else if !s.gameOver || s.gameWon then
    some { s with gameWon := true, gameOver := true }
  else
    some s

/-- A state in which the light is dormant (`lightAngle = None`), obtained
from the initial state by `resetLight` — exactly the situation in which a
minute tick reaches `spawnLight`. -/
noncomputable def dormantState : AppState := resetLight initState

lemma dormantState_lightAngle : dormantState.lightAngle = none := rfl

lemma dormantState_lightSpawn : dormantState.lightSpawn = 1 / 10 := rfl

/-- C2 (code bug): with `lightSpawn = 0.1` the claim predicts exactly
`0.1 * 100 = 10` of the `100` equally likely draws of
`random.randint(1, 100)` arm the light.  In the code the test is inverted:
`spawnLight` RETURNS (no spawn) when `lightSpawn * 100 > draw` and arms
otherwise, so (in exact arithmetic) the draws `10..100` — `91` outcomes of
`100`, not `10` — arm a dormant light on a minute tick. -/
theorem claim_C2_spawn_probability :
    ((Finset.Icc (1 : ℤ) 100).filter
      (fun n => ((changeLight n 90 dormantState).lightAngle).isSome)).card = 91 := by
  have hcond : ∀ n ∈ Finset.Icc (1 : ℤ) 100,
      (((changeLight n 90 dormantState).lightAngle).isSome = true) ↔ 10 ≤ n := by
    intro n _
    have hiff : (dormantState.lightSpawn * 100 > (n : ℚ)) ↔ n < 10 := by
      rw [dormantState_lightSpawn]
      constructor
      · intro h
        by_contra hc
        push_neg at hc
        have : (10 : ℚ) ≤ (n : ℚ) := by exact_mod_cast hc
        norm_num at h
        linarith
      · intro h
        have : (n : ℚ) < 10 := by exact_mod_cast h
        norm_num
        linarith
    have hch : changeLight n 90 dormantState = spawnLight n 90 dormantState := by
      unfold changeLight
      rw [dormantState_lightAngle]
    rw [hch]
    unfold spawnLight
    by_cases hn : dormantState.lightSpawn * 100 > (n : ℚ)
    · rw [if_pos hn, dormantState_lightAngle]
      simp only [Option.isSome_none, Bool.false_eq_true, false_iff]
      have := hiff.mp hn
      omega
    · rw [if_neg hn]
      simp only [Option.isSome_some, true_iff]
      by_contra hc
      push_neg at hc
      exact hn (hiff.mpr hc)
  rw [Finset.filter_congr hcond]
  have hIcc : (Finset.Icc (1 : ℤ) 100).filter (fun n => 10 ≤ n) = Finset.Icc 10 100 := by
    ext x
    simp only [Finset.mem_filter, Finset.mem_Icc]
    omega
  rw [hIcc, Int.card_Icc]
  rfl

/-! Field-preservation lemmas for the pieces of `onStep`. -/

lemma waveCore_proj (s : AppState) :
    (waveCore s).gameOver = s.gameOver ∧ (waveCore s).gameWon = s.gameWon ∧
    (waveCore s).gameTime = s.gameTime ∧ (waveCore s).waveAmount = s.waveAmount := by
  unfold waveCore
  dsimp only
  split_ifs <;> simp

lemma changeLight_proj (n k : ℤ) (s : AppState) :
    (changeLight n k s).gameOver = s.gameOver ∧
    (changeLight n k s).gameWon = s.gameWon ∧
    (changeLight n k s).waveAmount = s.waveAmount := by
  unfold changeLight spawnLight
  cases s.lightAngle <;> dsimp only <;> (try split_ifs) <;> simp

lemma fixBoxPosition_proj (s : AppState) :
    (fixBoxPosition s).gameOver = s.gameOver ∧
    (fixBoxPosition s).gameWon = s.gameWon ∧
    (fixBoxPosition s).waveAmount = s.waveAmount := by
  unfold fixBoxPosition
  cases s.lightAngle <;> dsimp only <;> (try split_ifs) <;> simp

lemma appstate_eta_terminal {s : AppState} (h1 : s.gameOver = true)
    (h2 : s.gameWon = true) :
    ({ s with gameWon := true, gameOver := true } : AppState) = s := by
  cases s
  simp_all

/-- Both game-over branches of `onStep` re-establish the reachability
invariant: a terminal state always carries an expired clock, and
`waveAmount` is never modified. -/
lemma onStep_preserves_invariants (n k : ℤ) (s : AppState)
    (hterm : s.gameOver = true → s.gameTime.isUp = true)
    (hwave : s.waveAmount % 5 = 0) :
    ∀ s', onStep n k s = some s' →
      ((s'.gameOver = true → s'.gameTime.isUp = true) ∧ s'.waveAmount % 5 = 0) := by
  intro s' h
  unfold onStep at h
  by_cases hup : s.gameTime.isUp
  · rw [hup] at h
    simp only [Bool.not_true, Bool.false_eq_true, if_false] at h
    by_cases hcond : (!s.gameOver || s.gameWon) = true
    · rw [if_pos hcond] at h
      injection h with h
      subst h
      exact ⟨fun _ => hup, hwave⟩
    · rw [if_neg hcond] at h
      injection h with h
      subst h
      exact ⟨hterm, hwave⟩
  · rw [Bool.not_eq_true] at hup
    rw [hup] at h
    simp only [Bool.not_false, if_true] at h
    by_cases hrad : s.lightRadius ≥ s.lightEndRadius
    · rw [if_pos hrad] at h
      injection h with h
      subst h
      exact ⟨fun _ => rfl, hwave⟩
    · rw [if_neg hrad] at h
      rw [show wave s = some (waveCore s) from by unfold wave; rw [if_pos hwave]] at h
      dsimp only at h
      obtain ⟨hgo, hgw, hgt, hwa⟩ := waveCore_proj s
      by_cases hc : ((waveCore s).gameTime.count).1 = true
      · rw [if_pos hc] at h
        injection h with h
        subst h
        constructor
        · intro hcontra
          exfalso
          have h1 := (fixBoxPosition_proj (changeLight n k
            { waveCore s with gameTime := ((waveCore s).gameTime.count).2 })).1
          have h2 := (changeLight_proj n k
            { waveCore s with gameTime := ((waveCore s).gameTime.count).2 }).1
          rw [h1, h2] at hcontra
          have h3 : s.gameOver = true := by
            rw [← hgo]
            exact hcontra
          rw [hterm h3] at hup
          exact Bool.noConfusion hup
        · have h1 := (fixBoxPosition_proj (changeLight n k
            { waveCore s with gameTime := ((waveCore s).gameTime.count).2 })).2.2
          have h2 := (changeLight_proj n k
            { waveCore s with gameTime := ((waveCore s).gameTime.count).2 }).2.2
          rw [h1, h2]
          show (waveCore s).waveAmount % 5 = 0
          rw [hwa]
          exact hwave
      · rw [if_neg hc] at h
        injection h with h
        subst h
        constructor
        · intro hcontra
          exfalso
          have h3 : s.gameOver = true := by
            rw [← hgo]
            exact hcontra
          rw [hterm h3] at hup
          exact Bool.noConfusion hup
        · show (waveCore s).waveAmount % 5 = 0
          rw [hwa]
          exact hwave

/-- C4 (confirmed): for every reachable state (reachability encoded by the
two invariants: a terminal state carries an expired clock, and
`waveAmount` is the constant multiple of 5 set at startup), one `onStep`
obeys the claimed precedence: terminal states are left unchanged; an
expired clock yields Won; otherwise a radius at or past `lightEndRadius`
yields Lost (with the clock forced to the expired `Time(0, 10)`); otherwise
the outcome flags are untouched (Ongoing).  Clock expiry is checked before
the radius threshold, and the invariants are preserved. -/
theorem claim_C4_step_precedence (n k : ℤ) (s : AppState)
    (hterm : s.gameOver = true → s.gameTime.isUp = true)
    (hwave : s.waveAmount % 5 = 0) :
    (s.gameOver = true → onStep n k s = some s) ∧
    (s.gameOver = false → s.gameTime.isUp = true →
      onStep n k s = some { s with gameWon := true, gameOver := true }) ∧
    (s.gameOver = false → s.gameTime.isUp = false →
      s.lightRadius ≥ s.lightEndRadius →
      onStep n k s = some { s with gameOver := true, gameTime := Time.make 0 10 }) ∧
    (s.gameOver = false → s.gameTime.isUp = false →
      s.lightRadius < s.lightEndRadius →
      ∃ s', onStep n k s = some s' ∧ s'.gameOver = false ∧ s'.gameWon = s.gameWon) ∧
    (∀ s', onStep n k s = some s' →
      ((s'.gameOver = true → s'.gameTime.isUp = true) ∧ s'.waveAmount % 5 = 0)) := by
  refine ⟨?_, ?_, ?_, ?_, onStep_preserves_invariants n k s hterm hwave⟩
  · intro hgo
    have hup := hterm hgo
    unfold onStep
    rw [hup, hgo]
    simp only [Bool.not_true, Bool.false_eq_true, if_false, Bool.false_or]
    by_cases hgw : s.gameWon = true
    · rw [hgw]
      simp only [if_true]
      rw [appstate_eta_terminal hgo hgw]
    · rw [Bool.not_eq_true] at hgw
      rw [hgw]
      simp only [Bool.false_eq_true, if_false]
  · intro hgo hup
    unfold onStep
    rw [hup, hgo]
    simp only [Bool.not_true, Bool.false_eq_true, if_false, Bool.not_false,
      Bool.true_or, if_true]
  · intro _ hup hrad
    unfold onStep
    rw [hup]
    simp only [Bool.not_false, if_true]
    rw [if_pos hrad]
  · intro hgo hup hrad
    unfold onStep
    rw [hup]
    simp only [Bool.not_false, if_true]
    rw [if_neg (not_le.mpr hrad)]
    rw [show wave s = some (waveCore s) from by unfold wave; rw [if_pos hwave]]
    dsimp only
    obtain ⟨hgo', hgw', hgt', hwa'⟩ := waveCore_proj s
    set s2 : AppState := { waveCore s with gameTime := ((waveCore s).gameTime.count).2 }
    have hs2go : s2.gameOver = s.gameOver := hgo'
    have hs2gw : s2.gameWon = s.gameWon := hgw'
    by_cases hc : ((waveCore s).gameTime.count).1 = true
    · rw [if_pos hc]
      refine ⟨fixBoxPosition (changeLight n k s2), rfl, ?_, ?_⟩
      · rw [(fixBoxPosition_proj _).1, (changeLight_proj n k _).1, hs2go, hgo]
      · rw [(fixBoxPosition_proj _).2.1, (changeLight_proj n k _).2.1, hs2gw]
    · rw [if_neg hc]
      exact ⟨s2, rfl, by rw [hs2go, hgo], hs2gw⟩

/-- C4 (witness): from the freshly reset initial state (non-terminal,
clock `Time(100, 10)` not expired, radius `8 < 40`) a step stays Ongoing. -/
theorem claim_C4_witness :
    ∃ s', onStep 50 90 initState = some s' ∧ s'.gameOver = false ∧
      s'.gameWon = initState.gameWon := by
  have h := claim_C4_step_precedence 50 90 initState
    (by intro hcontra; rw [show initState.gameOver = false from rfl] at hcontra; cases hcontra)
    (by rfl)
  exact h.2.2.2.1 rfl rfl (by decide)

/-! ### Numeric trigonometry facts used for the rotation bounds (C6) and
the spawn-range/view-span comparison (C8). -/

lemma sqrt_two_lb : (1.414 : ℝ) ≤ Real.sqrt 2 := by
  nlinarith [Real.sq_sqrt (show (0 : ℝ) ≤ 2 by norm_num), Real.sqrt_nonneg 2]

lemma sqrt_two_ub : Real.sqrt 2 ≤ 1.415 := by
  nlinarith [Real.sq_sqrt (show (0 : ℝ) ≤ 2 by norm_num), Real.sqrt_nonneg 2]

lemma sqrt_three_lb : (1.732 : ℝ) ≤ Real.sqrt 3 := by
  nlinarith [Real.sq_sqrt (show (0 : ℝ) ≤ 3 by norm_num), Real.sqrt_nonneg 3]

lemma sqrt_three_ub : Real.sqrt 3 ≤ 1.7321 := by
  nlinarith [Real.sq_sqrt (show (0 : ℝ) ≤ 3 by norm_num), Real.sqrt_nonneg 3]

lemma sqrt_five_ub : Real.sqrt 5 ≤ 2.2361 := by
  nlinarith [Real.sq_sqrt (show (0 : ℝ) ≤ 5 by norm_num), Real.sqrt_nonneg 5]

/-- The tangent of 67.5 degrees is `1 + sqrt 2`. -/
lemma tan_three_pi_div_eight : Real.tan (3 * Real.pi / 8) = 1 + Real.sqrt 2 := by
  have h8 : 3 * Real.pi / 8 = Real.pi / 2 - Real.pi / 8 := by ring
  have hpos : (0 : ℝ) < 2 - Real.sqrt 2 := by
    nlinarith [Real.sq_sqrt (show (0 : ℝ) ≤ 2 by norm_num), Real.sqrt_nonneg 2]
  have hkey : Real.sqrt (2 + Real.sqrt 2) = (1 + Real.sqrt 2) * Real.sqrt (2 - Real.sqrt 2) := by
    rw [show (2 + Real.sqrt 2 : ℝ) = ((1 + Real.sqrt 2) * Real.sqrt (2 - Real.sqrt 2)) ^ 2 from by
      rw [mul_pow, Real.sq_sqrt hpos.le]
      nlinarith [Real.sq_sqrt (show (0 : ℝ) ≤ 2 by norm_num), Real.sqrt_nonneg 2]]
    rw [Real.sqrt_sq (by positivity)]
  rw [h8, Real.tan_eq_sin_div_cos, Real.sin_pi_div_two_sub, Real.cos_pi_div_two_sub,
    Real.cos_pi_div_eight, Real.sin_pi_div_eight]
  rw [div_eq_iff (by positivity : (Real.sqrt (2 - Real.sqrt 2) / 2) ≠ 0)]
  rw [hkey]
  ring

lemma arctan_one_add_sqrt_two : Real.arctan (1 + Real.sqrt 2) = 3 * Real.pi / 8 := by
  rw [← tan_three_pi_div_eight]
  apply Real.arctan_tan
  · nlinarith [Real.pi_pos]
  · nlinarith [Real.pi_pos]

lemma cos_pi_div_twelve : Real.cos (Real.pi / 12) = (Real.sqrt 2 + Real.sqrt 6) / 4 := by
  have h : Real.pi / 12 = Real.pi / 3 - Real.pi / 4 := by ring
  rw [h, Real.cos_sub, Real.cos_pi_div_three, Real.sin_pi_div_three,
    Real.cos_pi_div_four, Real.sin_pi_div_four]
  rw [show (6 : ℝ) = 2 * 3 from by norm_num, Real.sqrt_mul (by norm_num : (0:ℝ) ≤ 2)]
  ring

lemma sin_pi_div_twelve : Real.sin (Real.pi / 12) = (Real.sqrt 6 - Real.sqrt 2) / 4 := by
  have h : Real.pi / 12 = Real.pi / 3 - Real.pi / 4 := by ring
  rw [h, Real.sin_sub, Real.cos_pi_div_three, Real.sin_pi_div_three,
    Real.cos_pi_div_four, Real.sin_pi_div_four]
  rw [show (6 : ℝ) = 2 * 3 from by norm_num, Real.sqrt_mul (by norm_num : (0:ℝ) ≤ 2)]
  ring

/-- The tangent of 75 degrees is `2 + sqrt 3`. -/
lemma tan_five_pi_div_twelve : Real.tan (5 * Real.pi / 12) = 2 + Real.sqrt 3 := by
  have h12 : 5 * Real.pi / 12 = Real.pi / 2 - Real.pi / 12 := by ring
  have h23 : Real.sqrt 2 * Real.sqrt 3 = Real.sqrt 6 := by
    rw [← Real.sqrt_mul (by norm_num : (0:ℝ) ≤ 2)]
    norm_num
  have hs2 : (0 : ℝ) < Real.sqrt 2 := Real.sqrt_pos.mpr (by norm_num)
  have hs3pos : (0 : ℝ) < Real.sqrt 3 := Real.sqrt_pos.mpr (by norm_num)
  have h3 : Real.sqrt 3 * Real.sqrt 3 = 3 := Real.mul_self_sqrt (by norm_num)
  have hden : (0 : ℝ) < Real.sqrt 6 - Real.sqrt 2 := by
    have h6 : Real.sqrt 2 < Real.sqrt 6 := by
      apply Real.sqrt_lt_sqrt (by norm_num)
      norm_num
    linarith
  rw [h12, Real.tan_eq_sin_div_cos, Real.sin_pi_div_two_sub, Real.cos_pi_div_two_sub,
    cos_pi_div_twelve, sin_pi_div_twelve]
  rw [div_eq_iff (by positivity : ((Real.sqrt 6 - Real.sqrt 2) / 4) ≠ 0)]
  rw [← h23]
  ring_nf
  linear_combination (-(1 : ℝ) / 4 * Real.sqrt 2) * h3

lemma arctan_two_add_sqrt_three : Real.arctan (2 + Real.sqrt 3) = 5 * Real.pi / 12 := by
  rw [← tan_five_pi_div_twelve]
  apply Real.arctan_tan
  · nlinarith [Real.pi_pos]
  · nlinarith [Real.pi_pos]

/-- A sandwich for `arctan 0.66` (half the field of view in radians):
strictly between 30 and 36 degrees. -/
lemma arctan_066_lt_pi_div_five : Real.arctan 0.66 < Real.pi / 5 := by
  have hcos : Real.cos (Real.pi / 5) = (1 + Real.sqrt 5) / 4 := Real.cos_pi_div_five
  have hcpos : (0 : ℝ) < Real.cos (Real.pi / 5) := by
    rw [hcos]
    positivity
  have hspos : (0 : ℝ) < Real.sin (Real.pi / 5) := by
    apply Real.sin_pos_of_pos_of_lt_pi
    · positivity
    · nlinarith [Real.pi_pos]
  have hsq : Real.sin (Real.pi / 5) ^ 2 = 1 - Real.cos (Real.pi / 5) ^ 2 := by
    nlinarith [Real.sin_sq_add_cos_sq (Real.pi / 5)]
  have htan : (0.66 : ℝ) < Real.tan (Real.pi / 5) := by
    rw [Real.tan_eq_sin_div_cos, lt_div_iff₀ hcpos]
    nlinarith [Real.sq_sqrt (show (0 : ℝ) ≤ 5 by norm_num), Real.sqrt_nonneg 5,
      sqrt_five_ub, hsq, hcos, hspos]
  calc Real.arctan 0.66 < Real.arctan (Real.tan (Real.pi / 5)) :=
        Real.arctan_strictMono htan
    _ = Real.pi / 5 := Real.arctan_tan (by nlinarith [Real.pi_pos]) (by nlinarith [Real.pi_pos])

lemma pi_div_six_lt_arctan_066 : Real.pi / 6 < Real.arctan 0.66 := by
  have htan : Real.tan (Real.pi / 6) < 0.66 := by
    rw [Real.tan_pi_div_six]
    rw [div_lt_iff₀ (Real.sqrt_pos.mpr (by norm_num))]
    nlinarith [Real.sq_sqrt (show (0 : ℝ) ≤ 3 by norm_num), sqrt_three_lb]
  calc Real.pi / 6 = Real.arctan (Real.tan (Real.pi / 6)) :=
        (Real.arctan_tan (by nlinarith [Real.pi_pos]) (by nlinarith [Real.pi_pos])).symm
    _ < Real.arctan 0.66 := Real.arctan_strictMono htan

/-! ### Rotation input handling (src/main.py lines 267-299) -/

/-- Embedding of `inBounds` (src/main.py lines 291-299): the check compares
the CURRENT (pre-rotation) direction angle against the hardcoded thresholds
`-113` (left) and `-70` (right); any other key yields Python `None`
(falsy), modelled as `False`. -/
def inBounds (key : String) (dir : ℝ × ℝ) : Prop :=
  if key = "left" then Vec2D.getAngle dir > -113
  else if key = "right" then Vec2D.getAngle dir < -70
  else False

noncomputable instance (key : String) (dir : ℝ × ℝ) : Decidable (inBounds key dir) := by
  unfold inBounds
  split_ifs <;> infer_instance

/-- Embedding of the rotation part of `onKeyPress` (src/main.py lines
267-274) acting on `app.playerDir`, with `degrees = 10`. -/
noncomputable def onKeyPressDir (key : String) (dir : ℝ × ℝ) : ℝ × ℝ :=
  if (key = "right" ∨ key = "d") ∧ inBounds "right" dir then Vec2D.rotate dir (-10)
  else if (key = "left" ∨ key = "a") ∧ inBounds "left" dir then Vec2D.rotate dir 10
  else dir

lemma atan2_pos_x (y x : ℝ) (hx : 0 < x) : atan2 y x = Real.arctan (y / x) := by
  unfold atan2
  rw [if_pos hx]

lemma getAngle_eq_of_pos_x (v : ℝ × ℝ) (hx : 0 < v.1) :
    Vec2D.getAngle v = degreesOf (Real.arctan (v.2 / v.1)) := by
  unfold Vec2D.getAngle
  rw [atan2_pos_x _ _ hx]

/-- The concrete direction vector `(1, -(2 + sqrt 3))`, whose angle is
exactly `-75` degrees — legal for a right rotation. -/
noncomputable def vC6 : ℝ × ℝ := (1, -(2 + Real.sqrt 3))

lemma getAngle_vC6 : Vec2D.getAngle vC6 = -75 := by
  rw [getAngle_eq_of_pos_x vC6 (by unfold vC6; norm_num)]
  rw [show vC6.2 / vC6.1 = -(2 + Real.sqrt 3) from by unfold vC6; norm_num]
  rw [Real.arctan_neg, arctan_two_add_sqrt_three]
  unfold degreesOf
  field_simp
  ring

lemma radiansOf_ten : radiansOf (-(-10)) = Real.pi / 18 := by
  unfold radiansOf
  ring

/-- The image of `vC6` under the (buggy) `rotate` by `-10` degrees. -/
lemma rotate_vC6 :
    Vec2D.rotate vC6 (-10) =
      (Real.cos (Real.pi / 18) + (2 + Real.sqrt 3) * Real.sin (Real.pi / 18),
       (Real.cos (Real.pi / 18) + (2 + Real.sqrt 3) * Real.sin (Real.pi / 18)) *
           Real.sin (Real.pi / 18) - (2 + Real.sqrt 3) * Real.cos (Real.pi / 18)) := by
  unfold Vec2D.rotate vC6
  rw [radiansOf_ten]
  dsimp only
  refine Prod.ext ?_ ?_ <;> dsimp only <;> ring

lemma pi_div_18_lb : (0.174532 : ℝ) ≤ Real.pi / 18 := by
  nlinarith [Real.pi_gt_d6]

lemma pi_div_18_ub : Real.pi / 18 ≤ 0.175 := by
  nlinarith [Real.pi_lt_d2]

lemma sin_pi_div_18_lb : (0.173 : ℝ) ≤ Real.sin (Real.pi / 18) := by
  have h := Real.sin_gt_sub_cube (x := Real.pi / 18)
    (by positivity) (by nlinarith [Real.pi_lt_d2])
  have hx3 : (Real.pi / 18) ^ 3 ≤ (0.175 : ℝ) ^ 3 :=
    pow_le_pow_left₀ (by positivity) pi_div_18_ub 3
  nlinarith [pi_div_18_lb]

lemma cos_pi_div_18_pos : (0 : ℝ) < Real.cos (Real.pi / 18) := by
  apply Real.cos_pos_of_mem_Ioo
  constructor
  · nlinarith [Real.pi_pos]
  · nlinarith [Real.pi_pos]

lemma sin_pi_div_18_pos : (0 : ℝ) < Real.sin (Real.pi / 18) := by
  apply Real.sin_pos_of_pos_of_lt_pi
  · positivity
  · nlinarith [Real.pi_pos]

/-- After the accepted right press from `-75` degrees, the new direction's
angle has LEFT the hardcoded interval: it is strictly above `-70`
(numerically about `-64`). -/
lemma rotated_vC6_angle_gt : Vec2D.getAngle (Vec2D.rotate vC6 (-10)) > -70 := by
  rw [rotate_vC6]
  have hc1 : Real.cos (Real.pi / 18) ≤ 1 := Real.cos_le_one _
  have hc0 := cos_pi_div_18_pos
  have hs0 := sin_pi_div_18_pos
  have hslb := sin_pi_div_18_lb
  have ht_lb := sqrt_three_lb
  have ht_ub := sqrt_three_ub
  have h2lb := sqrt_two_lb
  have h2ub := sqrt_two_ub
  have hx : (0 : ℝ) <
      Real.cos (Real.pi / 18) + (2 + Real.sqrt 3) * Real.sin (Real.pi / 18) := by
    nlinarith
  rw [getAngle_eq_of_pos_x _ (by dsimp only; exact hx)]
  dsimp only
  have hmain : -(1 + Real.sqrt 2) *
      (Real.cos (Real.pi / 18) + (2 + Real.sqrt 3) * Real.sin (Real.pi / 18)) ≤
      (Real.cos (Real.pi / 18) + (2 + Real.sqrt 3) * Real.sin (Real.pi / 18)) *
          Real.sin (Real.pi / 18) - (2 + Real.sqrt 3) * Real.cos (Real.pi / 18) := by
    have ha0 : (0 : ℝ) ≤
        (Real.cos (Real.pi / 18) + (2 + Real.sqrt 3) * Real.sin (Real.pi / 18)) *
          Real.sin (Real.pi / 18) := mul_nonneg hx.le hs0.le
    have ha1 : (2.414 : ℝ) * 3.732 ≤ (1 + Real.sqrt 2) * (2 + Real.sqrt 3) := by
      nlinarith
    have ha2 : (2.414 : ℝ) * 3.732 * 0.173 ≤
        (1 + Real.sqrt 2) * (2 + Real.sqrt 3) * Real.sin (Real.pi / 18) := by
      nlinarith [mul_nonneg (by linarith : (0:ℝ) ≤ (1 + Real.sqrt 2) * (2 + Real.sqrt 3) - 2.414 * 3.732)
        (by linarith : (0:ℝ) ≤ Real.sin (Real.pi / 18) - 0.173)]
    have ha3 : (1 + Real.sqrt 3 - Real.sqrt 2) * Real.cos (Real.pi / 18) ≤ 1.3181 := by
      nlinarith [mul_nonneg (by linarith : (0:ℝ) ≤ 1 + Real.sqrt 3 - Real.sqrt 2)
        (by linarith : (0:ℝ) ≤ 1 - Real.cos (Real.pi / 18))]
    nlinarith [ha0, ha2, ha3]
  have harct : Real.arctan
      (((Real.cos (Real.pi / 18) + (2 + Real.sqrt 3) * Real.sin (Real.pi / 18)) *
          Real.sin (Real.pi / 18) - (2 + Real.sqrt 3) * Real.cos (Real.pi / 18)) /
        (Real.cos (Real.pi / 18) + (2 + Real.sqrt 3) * Real.sin (Real.pi / 18))) ≥
      -(3 * Real.pi / 8) := by
    rw [show -(3 * Real.pi / 8) = Real.arctan (-(1 + Real.sqrt 2)) from by
      rw [Real.arctan_neg, arctan_one_add_sqrt_two]]
    apply Real.arctan_strictMono.le_iff_le.mpr
    rw [le_div_iff₀ hx]
    exact hmain
  unfold degreesOf
  have hdeg : -(3 * Real.pi / 8) * 180 / Real.pi = -67.5 := by
    field_simp
    ring
  have hstep := (div_le_div_iff_of_pos_right Real.pi_pos).mpr
    (mul_le_mul_of_nonneg_right harct (by norm_num : (0 : ℝ) ≤ 180))
  rw [hdeg] at hstep
  linarith

/-- C6 (counterexample): from the direction `(1, -(2 + sqrt 3))` — facing
angle exactly `-75` degrees, inside the hardcoded interval — the right
rotation IS applied (`inBounds` only checks the pre-rotation angle), yet
the post-rotation facing angle is strictly above `-70` degrees, i.e.
outside the hardcoded interval.  So rotation is not "applied only when the
resulting facing angle would remain within the interval", and the interval
is not an invariant of reachable states. -/
theorem claim_C6_counterexample :
    inBounds "right" vC6 ∧
    onKeyPressDir "right" vC6 = Vec2D.rotate vC6 (-10) ∧
    Vec2D.getAngle (Vec2D.rotate vC6 (-10)) > -70 := by
  have hib : inBounds "right" vC6 := by
    unfold inBounds
    rw [if_neg (by decide), if_pos rfl, getAngle_vC6]
    norm_num
  refine ⟨hib, ?_, rotated_vC6_angle_gt⟩
  unfold onKeyPressDir
  rw [if_pos ⟨Or.inl rfl, hib⟩]

/-- C6 (amended): rotation is gated by the PRE-rotation facing angle: a
left (resp. right) press rotates by `10` (resp. `-10`) degrees exactly
when the current angle is above `-113` (resp. below `-70`), and otherwise
leaves the direction unchanged.  The post-rotation angle may land outside
the interval by up to one press's worth of rotation (see the
counterexample), so the clamp is approximate, not exact. -/
theorem claim_C6_amended (dir : ℝ × ℝ) :
    onKeyPressDir "left" dir =
      (if Vec2D.getAngle dir > -113 then Vec2D.rotate dir 10 else dir) ∧
    onKeyPressDir "right" dir =
      (if Vec2D.getAngle dir < -70 then Vec2D.rotate dir (-10) else dir) := by
  constructor
  · unfold onKeyPressDir
    rw [if_neg (fun h => by rcases h.1 with h1 | h1 <;> exact absurd h1 (by decide))]
    by_cases hb : Vec2D.getAngle dir > -113
    · rw [if_pos ⟨Or.inl rfl, by unfold inBounds; rw [if_pos rfl]; exact hb⟩, if_pos hb]
    · rw [if_neg fun h => hb (by
        have h2 := h.2
        unfold inBounds at h2
        rwa [if_pos rfl] at h2), if_neg hb]
  · unfold onKeyPressDir
    by_cases hb : Vec2D.getAngle dir < -70
    · rw [if_pos ⟨Or.inl rfl, by
        unfold inBounds
        rw [if_neg (by decide), if_pos rfl]
        exact hb⟩, if_pos hb]
    · rw [if_neg fun h => hb (by
        have h2 := h.2
        unfold inBounds at h2
        rwa [if_neg (by decide), if_pos rfl] at h2)]
      rw [if_neg (fun h => by rcases h.1 with h1 | h1 <;> exact absurd h1 (by decide))]
      rw [if_neg hb]

/-! ### The spawn range versus the rotation-reachable view span (C8) -/

lemma magnitude_camera : Vec2D.getMagnitude ((0 : ℝ), (0.66 : ℝ)) = 0.66 := by
  unfold Vec2D.getMagnitude
  rw [← Real.sqrt_eq_rpow]
  rw [show (((0 : ℝ), (0.66 : ℝ)).1 ^ 2 + ((0 : ℝ), (0.66 : ℝ)).2 ^ 2) = 0.66 ^ 2 from by norm_num]
  exact Real.sqrt_sq (by norm_num)

lemma magnitude_dir : Vec2D.getMagnitude ((0 : ℝ), (-1 : ℝ)) = 1 := by
  unfold Vec2D.getMagnitude
  rw [← Real.sqrt_eq_rpow]
  rw [show (((0 : ℝ), (-1 : ℝ)).1 ^ 2 + ((0 : ℝ), (-1 : ℝ)).2 ^ 2) = 1 ^ 2 from by norm_num]
  exact Real.sqrt_sq (by norm_num)

lemma playerFOV_eq : playerFOV = degreesOf (2 * Real.arctan 0.66) := by
  unfold playerFOV
  rw [magnitude_camera, magnitude_dir]
  norm_num

lemma playerFOV_div_two : playerFOV / 2 = Real.arctan 0.66 * 180 / Real.pi := by
  rw [playerFOV_eq]
  unfold degreesOf
  ring

/-- Half the field of view is strictly between 30 and 36 degrees. -/
lemma playerFOV_div_two_bounds : 30 < playerFOV / 2 ∧ playerFOV / 2 < 36 := by
  rw [playerFOV_div_two]
  constructor
  · have h := (div_lt_div_iff_of_pos_right Real.pi_pos).mpr
      (mul_lt_mul_of_pos_right pi_div_six_lt_arctan_066 (by norm_num : (0 : ℝ) < 180))
    have he : Real.pi / 6 * 180 / Real.pi = 30 := by
      field_simp
      ring
    rwa [he] at h
  · have h := (div_lt_div_iff_of_pos_right Real.pi_pos).mpr
      (mul_lt_mul_of_pos_right arctan_066_lt_pi_div_five (by norm_num : (0 : ℝ) < 180))
    have he : Real.pi / 5 * 180 / Real.pi = 36 := by
      field_simp
      ring
    rwa [he] at h

/-- The angles the light can be armed with: some draw
`n ∈ [1, 100]`, `k ∈ [30, 150]` makes `spawnLight` (from a dormant state)
arm the light at angle `a`. -/
noncomputable def spawnableAngle (a : ℤ) : Prop :=
  ∃ n k : ℤ, n ∈ Finset.Icc (1 : ℤ) 100 ∧ k ∈ Finset.Icc (30 : ℤ) 150 ∧
    (spawnLight n k dormantState).lightAngle = some a

/-- Modelled from the spec (claim C8): the rotation-reachable view span —
the union over every facing angle `f` permitted by the `inBounds` interval
`[-113, -70]` of the momentary view cone
`[f - playerFOV/2, f + playerFOV/2]`. -/
noncomputable def reachableSpan (a : ℝ) : Prop :=
  ∃ f : ℝ, -113 ≤ f ∧ f ≤ -70 ∧ f - playerFOV / 2 ≤ a ∧ a ≤ f + playerFOV / 2

lemma spawnLight_arms (n k : ℤ) (hn : 10 ≤ n) :
    (spawnLight n k dormantState).lightAngle = some (k * -1) := by
  unfold spawnLight
  rw [dormantState_lightSpawn]
  rw [if_neg (by
    push_neg
    norm_num
    exact_mod_cast hn)]

/-- C8 (counterexample): the extreme spawnable angles `-150` and `-30`
(armed e.g. by the draws `k = 150` and `k = 30`) lie OUTSIDE the
rotation-reachable view span: half the FOV is under 36 degrees, so the
span is contained in `(-149, -34)`. -/
theorem claim_C8_counterexample :
    (spawnableAngle (-150) ∧ ¬ reachableSpan (-150)) ∧
    (spawnableAngle (-30) ∧ ¬ reachableSpan (-30)) := by
  obtain ⟨hlb, hub⟩ := playerFOV_div_two_bounds
  refine ⟨⟨⟨50, 150, by decide, by decide, ?_⟩, ?_⟩, ⟨⟨50, 30, by decide, by decide, ?_⟩, ?_⟩⟩
  · rw [spawnLight_arms 50 150 (by norm_num)]
    norm_num
  · rintro ⟨f, hf1, hf2, hf3, hf4⟩
    linarith
  · rw [spawnLight_arms 50 30 (by norm_num)]
    norm_num
  · rintro ⟨f, hf1, hf2, hf3, hf4⟩
    linarith

/-- C8 (amended): only the central part of the spawn range is guaranteed
visible: every angle in `[-143, -40]` is both spawnable and inside the
rotation-reachable view span (half the FOV exceeds 30 degrees, so the span
covers `[-143, -40]`); the extreme spawnable angles (near `-150` and
`-30`) fall outside the span (see the counterexample). -/
theorem claim_C8_amended (a : ℤ) (h1 : -143 ≤ a) (h2 : a ≤ -40) :
    spawnableAngle a ∧ reachableSpan (a : ℝ) := by
  obtain ⟨hlb, hub⟩ := playerFOV_div_two_bounds
  constructor
  · refine ⟨50, -a, by decide, ?_, ?_⟩
    · simp only [Finset.mem_Icc]
      omega
    · rw [spawnLight_arms 50 (-a) (by norm_num)]
      norm_num
  · have h1r : (-143 : ℝ) ≤ (a : ℝ) := by exact_mod_cast h1
    have h2r : ((a : ℝ)) ≤ -40 := by exact_mod_cast h2
    rcases le_or_lt (-113 : ℝ) (a : ℝ) with hge | hlt
    · rcases le_or_lt ((a : ℝ)) (-70) with hle | hgt
      · exact ⟨(a : ℝ), hge, hle, by linarith, by linarith⟩
      · exact ⟨-70, by norm_num, le_refl _, by linarith, by linarith⟩
    · exact ⟨-113, le_refl _, by norm_num, by linarith, by linarith⟩

/-- C8 (witness): the central angle `-90` (the angle the light is armed
with right after `reset`) is spawnable and inside the reachable span. -/
theorem claim_C8_witness : spawnableAngle (-90) ∧ reachableSpan ((-90 : ℤ) : ℝ) :=
  claim_C8_amended (-90) (by norm_num) (by norm_num)

end NightWatch
